import Mathlib

/-!
Verification of dayz-monitor (Rust): a shallow embedding in Lean of
`src/lib.rs` (A2S keyword parsing and server-info retrieval) and of the
status-update loop in `src/main.rs`, together with theorems settling the
specification claims.

Rust strings (`&str` / `String`) are modelled as `List Char`; Rust's
byte-oriented `str::len` is modelled by summing UTF-8 byte sizes.
-/

set_option autoImplicit false

namespace DayzMonitor

/-- UTF-8 byte size of one scalar value, as counted by Rust `str::len`. -/
def charUtf8Size (c : Char) : Nat :=
  if c.toNat < 0x80 then 1
  else if c.toNat < 0x800 then 2
  else if c.toNat < 0x10000 then 3
  else 4

/-- Rust `str::len`: the UTF-8 byte length of a string. -/
def utf8Len (s : List Char) : Nat :=
  (s.map charUtf8Size).sum

/-- Rust `values.split(',')`: split on every comma, keeping empty pieces
(so the empty string yields one empty token). -/
def splitComma : List Char → List (List Char)
  | [] => [[]]
  | c :: rest =>
    if c = ',' then [] :: splitComma rest
    else
      match splitComma rest with
      | [] => [[c]]
      | t :: ts => (c :: t) :: ts

/-- Rust `value.replace("lqs", "")`: delete every (leftmost,
non-overlapping) occurrence of the substring `lqs`. -/
def replaceLqs : List Char → List Char
  | 'l' :: 'q' :: 's' :: rest => replaceLqs rest
  | c :: rest => c :: replaceLqs rest
  | [] => []

/-- Value of a digit string read in base 10 (digit chars assumed). -/
def digitsVal (ds : List Char) : Nat :=
  ds.foldl (fun a c => a * 10 + (c.toNat - 48)) 0

/-- Rust `str::parse::<u32>()` as an `Option Nat`: an optional `+` sign
followed by one or more ASCII digits; a `-` sign is rejected for
unsigned types (the sign arm of `from_str_radix` is guarded by
`is_signed_ty`, so a leading `-` fails as an invalid digit); values
above `u32::MAX = 4294967295` overflow and fail. -/
def parseU32 (s : List Char) : Option Nat :=
  let ds := if s.head? = some '+' then s.tail else s
  if ds.isEmpty || !(ds.all Char.isDigit) then none
  else if digitsVal ds ≤ 4294967295 then some (digitsVal ds) else none

/-- The `ServerInfo` struct of `src/lib.rs`. -/
structure ServerInfo where
  server_time : Option (List Char)
  players_in_queue : Option Nat
  players : Nat
  max_players : Nat
  deriving DecidableEq, Repr

/-- One iteration of the `for value in split` loop body of
`extract_time_and_queue`: an `lqs`-prefixed token overwrites
`players_in_queue` with the (possibly failed) parse of the token after
deleting every `lqs` and skips the rest of the body (`continue`);
otherwise a token containing `:` of byte length at most 8 sets
`server_time` if it is still unset. -/
def scanToken (si : ServerInfo) (value : List Char) : ServerInfo :=
  if List.isPrefixOf ['l', 'q', 's'] value then
    { si with players_in_queue := parseU32 (replaceLqs value) }
  else if value.contains ':' ∧ si.server_time = none ∧ utf8Len value ≤ 8 then
    { si with server_time := some value }
  else si

/-- `extract_time_and_queue` of `src/lib.rs`: `None` when the optional
keywords are absent; otherwise scan the comma-separated tokens starting
from a `ServerInfo` with both optional fields unset and both counts 0. -/
def extract_time_and_queue (keywords : Option (List Char)) : Option ServerInfo :=
  match keywords with
  | none => none
  | some values =>
    some ((splitComma values).foldl scanToken
      { server_time := none, players_in_queue := none, players := 0, max_players := 0 })

/-- The `DayzMonitorError` enum of `src/lib.rs` (payloads reduced to
their display strings). -/
inductive DayzMonitorError where
  | TokioIOError (msg : List Char)
  | A2SError (msg : List Char)
  | ExtractServerInfoKeywordsMissing
  deriving DecidableEq, Repr

/-- The `thiserror` display strings of `DayzMonitorError`. -/
def errorToString : DayzMonitorError → List Char
  | .TokioIOError msg => "Tokio IO error: ".data ++ msg
  | .A2SError msg => "A2S error: ".data ++ msg
  | .ExtractServerInfoKeywordsMissing =>
      "Failed to extract server keywords from A2S response (keywords missing).".data

/-- The fields of the A2S response that `retrieve_server_info` reads:
the optional keyword string and the authoritative player counts. -/
structure A2SResponse where
  keywords : Option (List Char)
  players : Nat
  max_players : Nat
  deriving DecidableEq, Repr

/-- `retrieve_server_info` of `src/lib.rs`, after a successful transport
round-trip (a transport failure surfaces as `A2SError` before this logic
runs): parse the keywords, fail with `ExtractServerInfoKeywordsMissing`
when they are absent, then overwrite `players` / `max_players` with the
response's counts. -/
def retrieve_server_info (info : A2SResponse) :
    Except DayzMonitorError ServerInfo :=
  match extract_time_and_queue info.keywords with
  | none => .error .ExtractServerInfoKeywordsMissing
  | some si => .ok { si with players := info.players, max_players := info.max_players }

/-- Decimal rendering of a `Nat`, as Rust `format!("{}")` prints
unsigned integers. -/
def natToStr (n : Nat) : List Char :=
  Nat.toDigits 10 n

/-- An embed field (`CreateEmbed::field` name, value, inline flag). -/
structure EmbedField where
  name : List Char
  value : List Char
  inlined : Bool
  deriving DecidableEq, Repr

/-- The observable content of a built embed: title, description and
fields in order. -/
structure EmbedView where
  title : List Char
  description : List Char
  fields : List EmbedField
  deriving DecidableEq, Repr

/-- `BotState::title_online` of `src/main.rs`. -/
def title_online (serverName : List Char) : List Char :=
  "🟢 ".data ++ serverName ++ " — Online".data

/-- `BotState::title_offline` of `src/main.rs`. -/
def title_offline (serverName : List Char) : List Char :=
  "🔴 ".data ++ serverName ++ " — Offline".data

/-- `BotState::line_players` of `src/main.rs`: the queue is shown only
when it is present and positive. -/
def line_players (info : ServerInfo) : List Char :=
  match info.players_in_queue with
  | some q =>
    if q > 0 then
      "Players: **".data ++ natToStr info.players ++ " / ".data ++
        natToStr info.max_players ++ "**  •  Queue: **".data ++ natToStr q ++ "**".data
    else
      "Players: **".data ++ natToStr info.players ++ " / ".data ++
        natToStr info.max_players ++ "**".data
  | none =>
      "Players: **".data ++ natToStr info.players ++ " / ".data ++
        natToStr info.max_players ++ "**".data

/-- `BotState::line_time` of `src/main.rs`. -/
def line_time (info : ServerInfo) : List Char :=
  match info.server_time with
  | some t => "Server time: **".data ++ t ++ "**".data
  | none => "Server time: *(unavailable)*".data

/-- `now_relative_timestamp` of `src/main.rs`, with the wall clock
passed in as the seconds-since-epoch value it reads. -/
def now_relative_timestamp (secs : Nat) : List Char :=
  "<t:".data ++ natToStr secs ++ ":R>".data

/-- `build_online_edit` of `src/main.rs` (the embed content of the
edit), with the clock as a parameter. -/
def build_online_edit (serverName : List Char) (info : ServerInfo)
    (nowSecs : Nat) : EmbedView :=
  { title := title_online serverName
    description := line_players info
    fields := [{ name := "Details".data, value := line_time info, inlined := false },
               { name := "Last updated".data, value := now_relative_timestamp nowSecs,
                 inlined := false }] }

/-- `build_offline_edit` of `src/main.rs` (the embed content of the
edit), with the clock as a parameter. -/
def build_offline_edit (serverName : List Char) (err : List Char)
    (nowSecs : Nat) : EmbedView :=
  { title := title_offline serverName
    description := "Could not query the server right now.".data
    fields := [{ name := "Last updated".data, value := now_relative_timestamp nowSecs,
                 inlined := false },
               { name := "Error".data, value := err, inlined := false }] }

/-- The external outcomes one iteration of the `loop` in
`Handler::ready` can observe: whether `send_message` would succeed (and
with which new message id), what `retrieve_server_info` returns, whether
`edit_message` succeeds, and the clock reading. -/
structure TickEnv where
  sendResult : Option Nat
  queryResult : Except DayzMonitorError ServerInfo
  editOk : Bool
  nowSecs : Nat

/-- What one loop iteration did: the stored message id afterwards,
whether `send_message` was attempted / succeeded in creating a message,
and the edit applied (message id and embed), if any. -/
structure TickOutcome where
  messageId : Option Nat
  attemptedSend : Bool
  sentMessage : Bool
  appliedEdit : Option (Nat × EmbedView)
  deriving DecidableEq, Repr

/-- The embed content the loop edits into the message: the online view
on a successful query, the offline view (with the error's display
string) on a failed one. -/
def renderEdit (serverName : List Char) (env : TickEnv) : EmbedView :=
  match env.queryResult with
  | .ok info => build_online_edit serverName info env.nowSecs
  | .error e => build_offline_edit serverName (errorToString e) env.nowSecs

/-- One iteration of the `loop` in `Handler::ready`: when no message id
is stored, try to send the placeholder message; on failure sleep one
interval and restart the loop (no fetch, no edit, id still unset); on
success store the new id.  With an id stored, fetch, build the edit and
apply it; a failed `edit_message` is only logged and changes nothing. -/
def tick (serverName : List Char) (messageId : Option Nat) (env : TickEnv) :
    TickOutcome :=
  match messageId with
  | none =>
    match env.sendResult with
    | none =>
      { messageId := none, attemptedSend := true, sentMessage := false,
        appliedEdit := none }
    | some newId =>
      { messageId := some newId, attemptedSend := true, sentMessage := true,
        appliedEdit := some (newId, renderEdit serverName env) }
  | some mid =>
      { messageId := some mid, attemptedSend := false, sentMessage := false,
        appliedEdit := some (mid, renderEdit serverName env) }

/-- The loop of `Handler::ready` run over a finite sequence of tick
environments, threading the stored message id; returns the per-tick
outcomes in order. -/
def runTicks (serverName : List Char) (messageId : Option Nat) :
    List TickEnv → List TickOutcome
  | [] => []
  | env :: rest =>
    let o := tick serverName messageId env
    o :: runTicks serverName o.messageId rest

/-- The initialization in `Handler::ready`: `message_id` starts `None`
(as built in `main`) and is set to the configured `status_message_id`
when one is supplied, before the loop starts. -/
def readyInit (statusMessageId : Option Nat) : Option Nat :=
  match statusMessageId with
  | some mid => some mid
  | none => none

/-- Tokens consumed by the `lqs` rule: those with `lqs` as a literal
character prefix. -/
def lqsToken (v : List Char) : Bool :=
  List.isPrefixOf ['l', 'q', 's'] v

/-- Tokens eligible to become `server_time`: not consumed by the `lqs`
rule, containing a colon, of byte length at most 8. -/
def timeToken (v : List Char) : Bool :=
  !(List.isPrefixOf ['l', 'q', 's'] v) && v.contains ':' && decide (utf8Len v ≤ 8)

end DayzMonitor

namespace DayzMonitor

theorem scanToken_players (si : ServerInfo) (v : List Char) :
    (scanToken si v).players = si.players := by
  unfold scanToken
  split
  · rfl
  · split <;> rfl

theorem scanToken_max_players (si : ServerInfo) (v : List Char) :
    (scanToken si v).max_players = si.max_players := by
  unfold scanToken
  split
  · rfl
  · split <;> rfl

theorem foldl_scanToken_players (toks : List (List Char)) (si : ServerInfo) :
    (toks.foldl scanToken si).players = si.players := by
  induction toks generalizing si with
  | nil => rfl
  | cons t rest ih => rw [List.foldl_cons, ih, scanToken_players]

theorem foldl_scanToken_max_players (toks : List (List Char)) (si : ServerInfo) :
    (toks.foldl scanToken si).max_players = si.max_players := by
  induction toks generalizing si with
  | nil => rfl
  | cons t rest ih => rw [List.foldl_cons, ih, scanToken_max_players]

theorem scanToken_queue_of_not_lqs (si : ServerInfo) (v : List Char)
    (h : lqsToken v = false) :
    (scanToken si v).players_in_queue = si.players_in_queue := by
  have h' : ¬ (List.isPrefixOf ['l', 'q', 's'] v = true) := by
    simp only [lqsToken] at h
    exact fun hx => absurd (h.symm.trans hx) Bool.false_ne_true
  unfold scanToken
  rw [if_neg h']
  split <;> rfl

theorem scanToken_queue_of_lqs (si : ServerInfo) (v : List Char)
    (h : lqsToken v = true) :
    (scanToken si v).players_in_queue = parseU32 (replaceLqs v) := by
  simp only [lqsToken] at h
  unfold scanToken
  rw [if_pos h]

theorem scanToken_time_of_some (si : ServerInfo) (v : List Char) (x : List Char)
    (h : si.server_time = some x) :
    (scanToken si v).server_time = some x := by
  unfold scanToken
  split
  · exact h
  · split
    · rename_i hc
      rw [h] at hc
      exact absurd hc.2.1 (Option.some_ne_none x)
    · exact h

theorem foldl_scanToken_time_of_some (toks : List (List Char)) (si : ServerInfo)
    (x : List Char) (h : si.server_time = some x) :
    (toks.foldl scanToken si).server_time = some x := by
  induction toks generalizing si with
  | nil => exact h
  | cons t rest ih => exact ih _ (scanToken_time_of_some _ _ _ h)

theorem foldl_scanToken_queue (toks : List (List Char)) (si : ServerInfo) :
    (toks.foldl scanToken si).players_in_queue =
      ((toks.filter lqsToken).getLast?).elim si.players_in_queue
        (fun t => parseU32 (replaceLqs t)) := by
  induction toks using List.reverseRecOn with
  | nil => rfl
  | append_singleton toks t ih =>
    rw [List.foldl_append, List.foldl_cons, List.foldl_nil, List.filter_append]
    cases hl : lqsToken t with
    | false =>
      rw [scanToken_queue_of_not_lqs _ _ hl, ih]
      simp [hl]
    | true =>
      rw [scanToken_queue_of_lqs _ _ hl]
      simp [hl]

theorem foldl_scanToken_time (toks : List (List Char)) (si : ServerInfo)
    (h : si.server_time = none) :
    (toks.foldl scanToken si).server_time = toks.find? timeToken := by
  induction toks generalizing si with
  | nil => exact h
  | cons t rest ih =>
    rw [List.foldl_cons]
    cases hl : List.isPrefixOf ['l', 'q', 's'] t with
    | true =>
      have ht : ¬ timeToken t = true := by
        unfold timeToken
        rw [hl]
        exact fun hx => absurd hx (by exact Bool.false_ne_true)
      rw [List.find?_cons_of_neg _ ht]
      refine ih _ ?_
      unfold scanToken
      rw [if_pos hl]
      exact h
    | false =>
      have hneg : ¬ (List.isPrefixOf ['l', 'q', 's'] t = true) :=
        fun hx => absurd (hl.symm.trans hx) Bool.false_ne_true
      by_cases hc : t.contains ':' = true ∧ utf8Len t ≤ 8
      · have ht : timeToken t = true := by
          unfold timeToken
          rw [hl, hc.1, decide_eq_true_eq.mpr hc.2]
          rfl
        rw [List.find?_cons_of_pos _ ht]
        refine foldl_scanToken_time_of_some _ _ _ ?_
        unfold scanToken
        rw [if_neg hneg, if_pos ⟨hc.1, h, hc.2⟩]
      · have ht : ¬ timeToken t = true := by
          unfold timeToken
          rw [hl]
          by_cases hcon : t.contains ':' = true
          · have h8 : ¬ utf8Len t ≤ 8 := fun h2 => hc ⟨hcon, h2⟩
            rw [hcon, decide_eq_false_iff_not.mpr h8]
            exact fun hx => absurd hx (by exact Bool.false_ne_true)
          · have hcf : t.contains ':' = false :=
              Bool.eq_false_iff.mpr hcon
            rw [hcf]
            exact fun hx => absurd hx (by exact Bool.false_ne_true)
        rw [List.find?_cons_of_neg _ ht]
        refine ih _ ?_
        unfold scanToken
        rw [if_neg hneg, if_neg (fun hx => hc ⟨hx.1, hx.2.2⟩)]
        exact h

theorem replaceLqs_of_no_l : ∀ l : List Char, 'l' ∉ l → replaceLqs l = l
  | [], _ => rfl
  | c :: rest, h => by
    have hc : c ≠ 'l' := fun e => h (e ▸ List.mem_cons_self c rest)
    have hr : 'l' ∉ rest := fun m => h (List.mem_cons_of_mem c m)
    rw [replaceLqs.eq_def]
    split
    · rename_i rest2 heq
      exact absurd (List.cons.inj heq).1 hc
    · rename_i x1 c2 rest2 hnc heq
      obtain ⟨he1, he2⟩ := List.cons.inj heq
      rw [← he1, ← he2, replaceLqs_of_no_l rest hr]
    · rename_i x1 heq
      exact absurd heq (List.cons_ne_nil c rest)

theorem splitComma_of_no_comma : ∀ l : List Char, ',' ∉ l → splitComma l = [l]
  | [], _ => rfl
  | c :: rest, h => by
    have hc : c ≠ ',' := fun e => h (e ▸ List.mem_cons_self c rest)
    have hr : ',' ∉ rest := fun m => h (List.mem_cons_of_mem c m)
    rw [splitComma, if_neg hc, splitComma_of_no_comma rest hr]

theorem parseU32_none_of_overflow (ds : List Char)
    (hd : ∀ c ∈ ds, c.isDigit = true) (hv : 4294967295 < digitsVal ds) :
    parseU32 ds = none := by
  have hne : ds ≠ [] := by
    intro e
    rw [e] at hv
    exact absurd hv (by decide)
  have hplus : ¬ ds.head? = some '+' := by
    intro hx
    cases ds with
    | nil => exact hne rfl
    | cons d tl =>
      have hdd := hd d (List.mem_cons_self d tl)
      rw [List.head?_cons, Option.some.injEq] at hx
      rw [hx] at hdd
      exact absurd hdd (by decide)
  have hall : ds.all Char.isDigit = true := by
    rw [List.all_eq_true]
    exact hd
  have hempty : ds.isEmpty = false := by
    cases ds with
    | nil => exact absurd rfl hne
    | cons d tl => rfl
  simp only [parseU32]
  rw [if_neg hplus, hall, hempty]
  rw [if_neg (by decide : ¬ ((false || !true) = true))]
  rw [if_neg (Nat.not_le.mpr hv)]

theorem runTicks_cons (name : List Char) (mid : Option Nat) (env : TickEnv)
    (rest : List TickEnv) :
    runTicks name mid (env :: rest) =
      tick name mid env :: runTicks name (tick name mid env).messageId rest := rfl

/-- C1 counterexample: for the keyword string `lqs3,lqs` the last
`lqs`-prefixed token whose remainder parses successfully is `lqs3`
(parsing to 3), yet the code leaves `players_in_queue` unset, because the
failed parse of the later `lqs` token overwrites the earlier value with
`None` rather than leaving it as it was. -/
theorem extract_queue_cleared_on_parse_failure :
    parseU32 (replaceLqs "lqs3".data) = some 3 ∧
    extract_time_and_queue (some "lqs3,lqs".data) =
      some { server_time := none, players_in_queue := none,
             players := 0, max_players := 0 } ∧
    (extract_time_and_queue (some "lqs3,lqs".data)).map ServerInfo.players_in_queue ≠
      some (some 3) :=
  ⟨by decide, by decide, by decide⟩

/-- C1 (amended): scanning tokens left to right, each token that starts
with `lqs` has every occurrence of the substring `lqs` deleted and the
remainder parsed as a `u32`; `players_in_queue` is set to the outcome of
that parse — the value on success, unset on failure — so the last
`lqs`-prefixed token always determines the final value (unset when there
is none), and scanning continues without aborting the whole parse. -/
theorem extract_queue_eq_last_lqs (s : List Char) :
    (extract_time_and_queue (some s)).map ServerInfo.players_in_queue =
      some ((((splitComma s).filter lqsToken).getLast?).elim none
        (fun t => parseU32 (replaceLqs t))) := by
  unfold extract_time_and_queue
  rw [Option.map_some']
  rw [foldl_scanToken_queue]

/-- C2: `server_time` is the first token, in left-to-right order among
tokens not consumed by the `lqs` rule, that contains a colon and has
byte length at most 8, taken verbatim; later qualifying tokens are
ignored.  In particular `lqs3,12:34,foo,08:00` parses to queue 3 and
time `12:34`. -/
theorem extract_time_eq_first_time_token (s : List Char) :
    (extract_time_and_queue (some s)).map ServerInfo.server_time =
      some ((splitComma s).find? timeToken) ∧
    extract_time_and_queue (some "lqs3,12:34,foo,08:00".data) =
      some { server_time := some "12:34".data, players_in_queue := some 3,
             players := 0, max_players := 0 } := by
  constructor
  · unfold extract_time_and_queue
    rw [Option.map_some']
    rw [foldl_scanToken_time _ _ rfl]
  · decide

/-- C3: after a successful transport round-trip, `retrieve_server_info`
fails with the keywords-missing error exactly when the response carries
no keyword string; a present but empty keyword string succeeds. -/
theorem retrieve_keywords_missing_iff (info : A2SResponse) :
    (retrieve_server_info info = .error .ExtractServerInfoKeywordsMissing ↔
      info.keywords = none) ∧
    (info.keywords = some [] → ∃ si, retrieve_server_info info = .ok si) := by
  obtain ⟨k, p, m⟩ := info
  cases k with
  | none => exact ⟨⟨fun _ => rfl, fun _ => rfl⟩, fun h => Option.noConfusion h⟩
  | some v =>
    refine ⟨⟨fun h => Except.noConfusion h, fun h => Option.noConfusion h⟩,
      fun _ => ⟨_, rfl⟩⟩

theorem retrieve_keywords_missing_iff_witness :
    retrieve_server_info { keywords := none, players := 3, max_players := 4 } =
      .error .ExtractServerInfoKeywordsMissing ∧
    ∃ si, retrieve_server_info { keywords := some [], players := 5, max_players := 60 } =
      .ok si :=
  ⟨(retrieve_keywords_missing_iff
      { keywords := none, players := 3, max_players := 4 }).1.mpr rfl,
   (retrieve_keywords_missing_iff
      { keywords := some [], players := 5, max_players := 60 }).2 rfl⟩

/-- C4: starting Uninitialized with no stored message id, a tick whose
send fails leaves the id unset and applies no edit, the next tick whose
send succeeds stores the new message's id, and exactly one message is
created across the two ticks. -/
theorem tick_send_failure_then_success (name : List Char) (env1 env2 : TickEnv)
    (n : Nat) (h1 : env1.sendResult = none) (h2 : env2.sendResult = some n) :
    (tick name (readyInit none) env1).messageId = none ∧
    (tick name (readyInit none) env1).appliedEdit = none ∧
    (tick name (tick name (readyInit none) env1).messageId env2).messageId = some n ∧
    (runTicks name (readyInit none) [env1, env2]).countP
      (fun o => o.sentMessage) = 1 := by
  have e1 : tick name none env1 =
      { messageId := none, attemptedSend := true, sentMessage := false,
        appliedEdit := none } := by
    simp only [tick, h1]
  have e2 : tick name none env2 =
      { messageId := some n, attemptedSend := true, sentMessage := true,
        appliedEdit := some (n, renderEdit name env2) } := by
    simp only [tick, h2]
  refine ⟨?_, ?_, ?_, ?_⟩
  · rw [show readyInit none = none from rfl, e1]
  · rw [show readyInit none = none from rfl, e1]
  · rw [show readyInit none = none from rfl, e1]
    show (tick name none env2).messageId = some n
    rw [e2]
  · rw [show readyInit none = none from rfl]
    rw [runTicks_cons, e1]
    show ((⟨none, true, false, none⟩ : TickOutcome) ::
      runTicks name none [env2]).countP (fun o => o.sentMessage) = 1
    rw [runTicks_cons, e2]
    show ((⟨none, true, false, none⟩ : TickOutcome) ::
      (⟨some n, true, true, some (n, renderEdit name env2)⟩ : TickOutcome) ::
      runTicks name (some n) []).countP (fun o => o.sentMessage) = 1
    rfl

theorem tick_send_failure_then_success_witness :
    (tick [] (readyInit none)
      { sendResult := none, queryResult := .error .ExtractServerInfoKeywordsMissing,
        editOk := true, nowSecs := 0 }).messageId = none ∧
    (tick [] (readyInit none)
      { sendResult := none, queryResult := .error .ExtractServerInfoKeywordsMissing,
        editOk := true, nowSecs := 0 }).appliedEdit = none ∧
    (tick []
      (tick [] (readyInit none)
        { sendResult := none, queryResult := .error .ExtractServerInfoKeywordsMissing,
          editOk := true, nowSecs := 0 }).messageId
      { sendResult := some 5,
        queryResult := .ok { server_time := none, players_in_queue := none,
                             players := 0, max_players := 0 },
        editOk := true, nowSecs := 1 }).messageId = some 5 ∧
    (runTicks [] (readyInit none)
      [{ sendResult := none, queryResult := .error .ExtractServerInfoKeywordsMissing,
         editOk := true, nowSecs := 0 },
       { sendResult := some 5,
         queryResult := .ok { server_time := none, players_in_queue := none,
                              players := 0, max_players := 0 },
         editOk := true, nowSecs := 1 }]).countP (fun o => o.sentMessage) = 1 :=
  tick_send_failure_then_success [] _ _ 5 rfl rfl

/-- C5: on every tick taken with an id stored whose query fails, the
applied edit is the offline view rendered from the error's display
string, and the stored id is unchanged afterwards, whether or not the
edit itself succeeds. -/
theorem tick_active_query_failure_offline (name : List Char) (mid : Nat)
    (env : TickEnv) (e : DayzMonitorError) (hq : env.queryResult = .error e) :
    (tick name (some mid) env).appliedEdit =
      some (mid, build_offline_edit name (errorToString e) env.nowSecs) ∧
    (tick name (some mid) env).messageId = some mid := by
  constructor
  · show some (mid, renderEdit name env) = _
    unfold renderEdit
    rw [hq]
  · rfl

theorem tick_active_query_failure_offline_witness :
    (tick [] (some 7)
      { sendResult := none, queryResult := .error .ExtractServerInfoKeywordsMissing,
        editOk := false, nowSecs := 0 }).appliedEdit =
      some (7, build_offline_edit []
        (errorToString .ExtractServerInfoKeywordsMissing) 0) ∧
    (tick [] (some 7)
      { sendResult := none, queryResult := .error .ExtractServerInfoKeywordsMissing,
        editOk := false, nowSecs := 0 }).messageId = some 7 :=
  tick_active_query_failure_offline [] 7 _ _ rfl

/-- C6: with a pre-configured message id the controller starts Active
with that id, and every tick of the run only edits that same message:
no send is ever attempted, no message is ever created, and the stored id
never changes. -/
theorem preconfigured_never_sends (name : List Char) (mid : Nat)
    (envs : List TickEnv) :
    runTicks name (readyInit (some mid)) envs = envs.map (fun env =>
      { messageId := some mid, attemptedSend := false, sentMessage := false,
        appliedEdit := some (mid, renderEdit name env) }) := by
  rw [show readyInit (some mid) = some mid from rfl]
  induction envs with
  | nil => rfl
  | cons env rest ih =>
    rw [runTicks_cons, List.map_cons]
    congr 1

/-- C7: the keyword parser always returns `players = 0` and
`max_players = 0`, and on every successful fetch `retrieve_server_info`
overwrites both fields with the response's authoritative counts, so the
returned counts depend only on the response. -/
theorem extract_zero_counts_retrieve_overwrites (s : List Char) (p m : Nat) :
    (∃ si, extract_time_and_queue (some s) = some si ∧
      si.players = 0 ∧ si.max_players = 0) ∧
    (∃ r, retrieve_server_info { keywords := some s, players := p, max_players := m } =
        .ok r ∧ r.players = p ∧ r.max_players = m) := by
  constructor
  · exact ⟨_, rfl, foldl_scanToken_players _ _, foldl_scanToken_max_players _ _⟩
  · exact ⟨_, rfl, rfl, rfl⟩

/-- C8: parsing the keyword string `lqs` (empty numeric suffix) leaves
`players_in_queue` unset — the parse failure is swallowed — and the
parser is total: it returns a `ServerInfo` on every present keyword
string. -/
theorem extract_lqs_empty_suffix_total :
    extract_time_and_queue (some "lqs".data) =
      some { server_time := none, players_in_queue := none,
             players := 0, max_players := 0 } ∧
    ∀ s : List Char, ∃ si, extract_time_and_queue (some s) = some si :=
  ⟨by decide, fun _ => ⟨_, rfl⟩⟩

/-- C9: the keyword parser is deterministic and idempotent: its result
factors through the token list (inputs with the same token split parse
identically), and re-parsing the same keyword string yields identical
`ServerStatus` values. -/
theorem extract_deterministic_idempotent (s t : List Char)
    (h : splitComma s = splitComma t) :
    extract_time_and_queue (some s) = extract_time_and_queue (some t) ∧
    ∀ k : Option (List Char), extract_time_and_queue k = extract_time_and_queue k := by
  refine ⟨?_, fun _ => rfl⟩
  show some ((splitComma s).foldl scanToken
      { server_time := none, players_in_queue := none, players := 0, max_players := 0 }) =
    some ((splitComma t).foldl scanToken
      { server_time := none, players_in_queue := none, players := 0, max_players := 0 })
  rw [h]

theorem extract_deterministic_idempotent_witness :
    extract_time_and_queue (some "lqs1,12:34".data) =
      extract_time_and_queue (some "lqs1,12:34".data) ∧
    ∀ k : Option (List Char), extract_time_and_queue k = extract_time_and_queue k :=
  extract_deterministic_idempotent "lqs1,12:34".data "lqs1,12:34".data rfl

/-- C10: an `lqs` token whose all-digit remainder denotes a value above
`u32::MAX = 2^32 - 1` fails to parse, so `players_in_queue` is set to
unset by that token, and a keyword string consisting of that single
token parses (without panic) to a `ServerInfo` with `players_in_queue`
unset. -/
theorem extract_queue_overflow_unset (ds : List Char) (si : ServerInfo)
    (hd : ∀ c ∈ ds, c.isDigit = true) (hv : 4294967295 < digitsVal ds) :
    parseU32 (replaceLqs ('l' :: 'q' :: 's' :: ds)) = none ∧
    (scanToken si ('l' :: 'q' :: 's' :: ds)).players_in_queue = none ∧
    extract_time_and_queue (some ('l' :: 'q' :: 's' :: ds)) =
      some { server_time := none, players_in_queue := none,
             players := 0, max_players := 0 } := by
  have hnl : 'l' ∉ ds := fun mm => absurd (hd 'l' mm) (by decide)
  have hrepl : replaceLqs ('l' :: 'q' :: 's' :: ds) = ds := by
    rw [show replaceLqs ('l' :: 'q' :: 's' :: ds) = replaceLqs ds from rfl,
      replaceLqs_of_no_l ds hnl]
  have hparse : parseU32 (replaceLqs ('l' :: 'q' :: 's' :: ds)) = none := by
    rw [hrepl]
    exact parseU32_none_of_overflow ds hd hv
  have hpre : List.isPrefixOf ['l', 'q', 's'] ('l' :: 'q' :: 's' :: ds) = true := by
    simp [List.isPrefixOf]
  have hscan : (scanToken si ('l' :: 'q' :: 's' :: ds)).players_in_queue = none := by
    unfold scanToken
    rw [if_pos hpre]
    exact hparse
  refine ⟨hparse, hscan, ?_⟩
  have hsplit : splitComma ('l' :: 'q' :: 's' :: ds) = [('l' :: 'q' :: 's' :: ds)] := by
    refine splitComma_of_no_comma _ ?_
    intro hm
    rcases List.mem_cons.mp hm with h1 | hm
    · exact absurd h1 (by decide)
    rcases List.mem_cons.mp hm with h1 | hm
    · exact absurd h1 (by decide)
    rcases List.mem_cons.mp hm with h1 | hm
    · exact absurd h1 (by decide)
    exact absurd (hd ',' hm) (by decide)
  show some ((splitComma ('l' :: 'q' :: 's' :: ds)).foldl scanToken
      { server_time := none, players_in_queue := none, players := 0, max_players := 0 }) =
    some { server_time := none, players_in_queue := none, players := 0, max_players := 0 }
  rw [hsplit, List.foldl_cons, List.foldl_nil]
  unfold scanToken
  rw [if_pos hpre, hparse]

theorem extract_queue_overflow_unset_witness :
    parseU32 (replaceLqs ('l' :: 'q' :: 's' :: "4294967296".data)) = none ∧
    (scanToken { server_time := none, players_in_queue := none,
                 players := 0, max_players := 0 }
      ('l' :: 'q' :: 's' :: "4294967296".data)).players_in_queue = none ∧
    extract_time_and_queue (some ('l' :: 'q' :: 's' :: "4294967296".data)) =
      some { server_time := none, players_in_queue := none,
             players := 0, max_players := 0 } :=
  extract_queue_overflow_unset "4294967296".data
    { server_time := none, players_in_queue := none, players := 0, max_players := 0 }
    (by decide) (by decide)

end DayzMonitor
